import Mathlib

/-!
Verification of the PolGen-RVC voice-conversion core against its design
specification.  The Python modules under `src/` are shallowly embedded:
tensors over their time axis become `List ℚ` (or index functions `ℕ → ℚ`),
learned layers whose weights are arbitrary become function-valued
parameters, and every random draw (`torch.randn_like`, `torch.rand`) is an
explicit input stream, so that inference is a pure function of weights,
inputs and the random state.
-/

namespace RVC

/-- Python truthiness of the optional `rate` argument (`if rate:` treats
both `None` and `0.0` as false). -/
def rateTruthy : Option ℚ → Bool
  | none => false
  | some r => r != 0

/-- Python `int(q)` on a number: truncation toward zero. -/
def pyInt (q : ℚ) : ℤ := Int.tdiv q.num q.den

/-- Python list slice `l[-head:]` for an integer `head`: for `head = 0` the
index is `-0 = 0` and the whole list is kept; for `head > 0` the last
`min head (length l)` elements are kept; for `head < 0` the index is the
positive number `-head` counted from the front. -/
def pyLastSlice (head : ℤ) (l : List α) : List α :=
  if head ≤ 0 then l.drop (-head).toNat
  else l.drop (l.length - min head.toNat l.length)

/-- Weights and frozen submodules of `SynthesizerTrnMsNSFsid`
(`src/infer_pack/models.py`).  `embG` is the speaker-embedding table
`emb_g`; `encP` is the text encoder `enc_p`, whose `forward` (line 36)
returns the nested 2-tuple `((m, logs), x_mask)` — `torch.split` yields
the pair `(m, logs)` and the mask is appended as the second element;
`expF` is the numeric exponential used by `torch.exp`, `flow` the
residual coupling block (last argument is the `reverse` flag), and `dec`
the NSF generator `dec` (taking the masked latent, the pitch `nsff0`,
the speaker conditioning `g` and the generator's random stream). -/
structure SynthWeights where
  embG : ℕ → List ℚ
  encP : List ℚ → Option (List ℕ) → ℕ → ((List ℚ × List ℚ) × List ℚ)
  expF : ℚ → ℚ
  flow : List ℚ → List ℚ → List ℚ → Bool → List ℚ
  dec : List ℚ → List ℚ → List ℚ → (ℕ → ℚ) → List ℚ

/-- Exceptions raised by the staged inference path. -/
inductive PyErr where
  | valueError
deriving DecidableEq

/-- Python iterable unpacking `a, b, c = t`: succeeds exactly when the
iterable yields three values; otherwise
`ValueError: not enough values to unpack` is raised. -/
def pyUnpack3 (vs : List α) : Except PyErr (α × α × α) :=
  match vs with
  | [a, b, c] => .ok (a, b, c)
  | _ => .error .valueError

/-- The sequence of values Python obtains by iterating the object
`TextEncoder.forward` returns (line 36 of `models.py`): the outer tuple
has exactly the two elements `(m, logs)` (a pair of tensors) and
`x_mask` (a tensor). -/
def encPElems (t : (List ℚ × List ℚ) × List ℚ) :
    List ((List ℚ × List ℚ) ⊕ List ℚ) :=
  [Sum.inl t.1, Sum.inr t.2]

/-- The expression staged on line 273 of `models.py`,
`(m_p + torch.exp(logs_p) * torch.randn_like(m_p) * 0.66666) * x_mask`,
in isolation.  As staged this line is never reached at run time: the
unpacking on line 272 raises first (see `infer`). -/
def priorLatent (expF : ℚ → ℚ) (m logs xmask noise : List ℚ) : List ℚ :=
  List.zipWith (· * ·)
    (List.zipWith (· + ·) m
      (List.zipWith (fun l n => expF l * n * 0.66666) logs noise))
    xmask

/-- The truncation staged on lines 274-276 of `models.py`
(`head = int(z_p.shape[2] * rate)`, then `[-head:]` slices), in
isolation.  As staged these lines are never reached at run time: the
unpacking on line 272 raises first (see `infer`). -/
def inferTruncate (rate : Option ℚ) (zp xmask nsff0 : List ℚ) :
    List ℚ × List ℚ × List ℚ :=
  match rate with
  | some r =>
    if r ≠ 0 then
      let head := pyInt ((zp.length : ℚ) * r)
      (pyLastSlice head zp, pyLastSlice head xmask, pyLastSlice head nsff0)
    else (zp, xmask, nsff0)
  | none => (zp, xmask, nsff0)

/-- `SynthesizerTrnMsNSFsid.infer` as staged (lines 270-278 of
`models.py`): line 271 reads the speaker embedding; line 272 calls
`enc_p` — which returns the 2-tuple `((m, logs), x_mask)` (line 36) —
and unpacks it into the three targets `m_p, logs_p, x_mask`.  Unpacking
a two-element tuple into three targets raises
`ValueError: not enough values to unpack (expected 3, got 2)`, so the
prior sampling (line 273), the truncation (274-276), the flow and the
decoder below the raise never execute and the exception propagates.  The
successful-unpack arm is unreachable, since `encPElems` always yields
exactly two values. -/
def infer (w : SynthWeights) (phone : List ℚ) (phoneLengths : ℕ)
    (pitch : Option (List ℕ)) (nsff0 : List ℚ) (sid : ℕ)
    (rate : Option ℚ) (noise : List ℚ) (rngDec : ℕ → ℚ) :
    Except PyErr (List ℚ × List ℚ × (List ℚ × List ℚ × List ℚ × List ℚ)) :=
  let g := w.embG sid
  let mlx := w.encP phone pitch phoneLengths
  match pyUnpack3 (encPElems mlx) with
  | .error e => .error e
  | .ok _ => .error .valueError

/-- One invertible step stored in `ResidualCouplingBlock.flows`: either a
`modules.ResidualCouplingLayer` or a `modules.Flip` (their internals live in
`infer_pack/modules.py` and are opaque here).  `apply x xmask g reverse`
is the step's `__call__`. -/
structure FlowStep where
  apply : List ℚ → List ℚ → List ℚ → Bool → List ℚ

/-- The `ResidualCouplingBlock` constructor (lines 42-45 of `models.py`):
`self.flows = nn.ModuleList([coupling, flip] * n_flows)`. -/
def mkFlows (layer flip : FlowStep) (nFlows : ℕ) : List FlowStep :=
  (List.replicate nFlows [layer, flip]).flatten

/-- `ResidualCouplingBlock.forward` (lines 47-51 of `models.py`):
iterates over `reversed(self.flows)` when `reverse` and over `self.flows`
otherwise, threading `x` through each step with the same `reverse` flag. -/
def flowForward (flows : List FlowStep) (x xmask g : List ℚ) (reverse : Bool) :
    List ℚ :=
  (if reverse then flows.reverse else flows).foldl
    (fun a f => f.apply a xmask g reverse) x

/-- Inclusive prefix sums, `torch.cumsum(·, dim=time)` on an index
function. -/
def cumsum (f : ℕ → ℚ) : ℕ → ℚ
  | 0 => f 0
  | i + 1 => cumsum f i + f (i + 1)

/-- Pythonic `x % 1` on a rational: the fractional part. -/
def frac (q : ℚ) : ℚ := q - ⌊q⌋

/-- Constructor arguments of `SineGen` (lines 119-127 of `models.py`). -/
structure SineGenCfg where
  samplingRate : ℚ
  sineAmp : ℚ
  noiseStd : ℚ
  voicedThreshold : ℚ

/-- Line 138-141 of `models.py`: `f0_buf[:, :, 0] = f0` and
`f0_buf[:, :, idx + 1] = f0 * (idx + 2)`, i.e. harmonic `k` carries
`f0 * (k + 1)`. -/
def f0Buf (f0 : ℕ → ℚ) (k t : ℕ) : ℚ := f0 t * (k + 1)

/-- Lines 143-144: `rand_ini = torch.rand(...)`, then `rand_ini[:, 0] = 0`:
harmonic 0 gets no random initial phase, harmonic `k > 0` gets `rand k`. -/
def randIni (rand : ℕ → ℚ) (k : ℕ) : ℚ := if k = 0 then 0 else rand k

/-- Lines 142-145: `rad_values = (f0_buf / sampling_rate) % 1` and then
`rad_values[:, 0, :] += rand_ini` (the random offset lands on the first
time frame only, after the `% 1`). -/
def radValues (cfg : SineGenCfg) (f0 rand : ℕ → ℚ) (k t : ℕ) : ℚ :=
  frac (f0Buf f0 k t / cfg.samplingRate) + (if t = 0 then randIni rand k else 0)

/-- Nearest-neighbour upsampling by an integer factor
(`F.interpolate(·, scale_factor=upp, mode="nearest")`): sample `i` reads
frame `i / upp`. -/
def nearestUp (upp : ℕ) (f : ℕ → ℚ) (i : ℕ) : ℚ := f (i / upp)

/-- Linear upsampling with `align_corners=True`
(`F.interpolate(·, scale_factor=upp, mode="linear", align_corners=True)`
on a length-`T` input): output sample `i` reads input coordinate
`i * (T - 1) / (T * upp - 1)` and interpolates linearly between the two
neighbouring frames. -/
def linearUpAC (T upp : ℕ) (f : ℕ → ℚ) (i : ℕ) : ℚ :=
  let c : ℚ := (i : ℚ) * ((T : ℚ) - 1) / (((T * upp : ℕ) : ℚ) - 1)
  (1 - (c - ⌊c⌋)) * f (⌊c⌋.toNat) + (c - ⌊c⌋) * f (⌊c⌋.toNat + 1)

/-- Lines 146-149: `tmp_over_one = cumsum(rad_values, 1) * upp`, linearly
upsampled with `align_corners=True`, then `%= 1`. -/
def tmpOverOne (cfg : SineGenCfg) (f0 rand : ℕ → ℚ) (T upp k : ℕ) (i : ℕ) :
    ℚ :=
  frac (linearUpAC T upp (fun t => cumsum (radValues cfg f0 rand k) t * upp) i)

/-- Line 148: `rad_values` nearest-upsampled to the sample rate, `% 1`. -/
def radUp (cfg : SineGenCfg) (f0 rand : ℕ → ℚ) (upp k : ℕ) (i : ℕ) : ℚ :=
  frac (nearestUp upp (radValues cfg f0 rand k) i)

/-- Lines 150-152: `cumsum_shift` is `0` at sample 0 and `-1` at sample
`i + 1` exactly when the wrapped cumulative phase decreased
(`tmp_over_one[1:] - tmp_over_one[:-1] < 0`). -/
def cumsumShift (cfg : SineGenCfg) (f0 rand : ℕ → ℚ) (T upp k : ℕ) :
    ℕ → ℚ
  | 0 => 0
  | i + 1 =>
    if tmpOverOne cfg f0 rand T upp k (i + 1) -
        tmpOverOne cfg f0 rand T upp k i < 0 then -1 else 0

/-- Line 153: `sine_waves = sin(cumsum(rad_values + cumsum_shift) * 2π) *
sine_amp`.  `sinF` is the numeric sine and `twoPi` the numeric `2 * np.pi`. -/
def sineWaves (cfg : SineGenCfg) (sinF : ℚ → ℚ) (twoPi : ℚ)
    (f0 rand : ℕ → ℚ) (T upp k : ℕ) (i : ℕ) : ℚ :=
  sinF (cumsum
      (fun j => radUp cfg f0 rand upp k j + cumsumShift cfg f0 rand T upp k j)
      i * twoPi) * cfg.sineAmp

/-- `SineGen._f02uv` (lines 129-133): the voiced flag is `1` iff
`f0 > voiced_threshold`. -/
def uvFrame (cfg : SineGenCfg) (f0 : ℕ → ℚ) (t : ℕ) : ℚ :=
  if cfg.voicedThreshold < f0 t then 1 else 0

/-- Line 155: the voiced flag nearest-upsampled to the sample rate. -/
def uvUp (cfg : SineGenCfg) (f0 : ℕ → ℚ) (upp : ℕ) (i : ℕ) : ℚ :=
  nearestUp upp (uvFrame cfg f0) i

/-- Line 156: `noise_amp = uv * noise_std + (1 - uv) * sine_amp / 3`. -/
def noiseAmp (cfg : SineGenCfg) (f0 : ℕ → ℚ) (upp : ℕ) (i : ℕ) : ℚ :=
  uvUp cfg f0 upp i * cfg.noiseStd + (1 - uvUp cfg f0 upp i) * cfg.sineAmp / 3

/-- Line 157: `noise = noise_amp * randn_like(sine_waves)`; `gauss k i` is
the standard-normal draw for harmonic `k` at sample `i`. -/
def sineGenNoise (cfg : SineGenCfg) (f0 : ℕ → ℚ) (gauss : ℕ → ℕ → ℚ)
    (upp k i : ℕ) : ℚ :=
  noiseAmp cfg f0 upp i * gauss k i

/-- `SineGen.forward` (lines 135-159): `sine_waves * uv + noise`, per
harmonic `k` and output sample `i`. -/
def sineGenForward (cfg : SineGenCfg) (sinF : ℚ → ℚ) (twoPi : ℚ)
    (f0 rand : ℕ → ℚ) (gauss : ℕ → ℕ → ℚ) (T upp : ℕ) (k i : ℕ) : ℚ :=
  sineWaves cfg sinF twoPi f0 rand T upp k i * uvUp cfg f0 upp i +
    sineGenNoise cfg f0 gauss upp k i

/-- Elementwise `F.leaky_relu(·, slope)` over a real-valued signal. -/
noncomputable def leakyRelu (slope : ℝ) (x : List ℝ) : List ℝ :=
  x.map (fun v => if v < 0 then slope * v else v)

/-- Elementwise tensor addition (`+` / `+=` on same-shape tensors). -/
noncomputable def addLists (a b : List ℝ) : List ℝ := List.zipWith (· + ·) a b

/-- The inner loop of lines 106-107 / 220-221 of `models.py`: `x_source`
starts as `None`, takes `resblocks[i*K + j](x)` on the first kernel and
accumulates sums afterwards; an empty kernel list leaves `None`, modelled
as the empty signal. -/
noncomputable def stageSum (K : ℕ) (rb : ℕ → List ℝ → List ℝ) (i : ℕ) (x : List ℝ) :
    List ℝ :=
  ((List.range K).foldl
    (fun acc j =>
      match acc with
      | none => some (rb (i * K + j) x)
      | some s => some (addLists s (rb (i * K + j) x)))
    none).getD []

/-- Shared weights of `Generator` / `GeneratorNSF` (`models.py` lines
78-116 and 182-230): the convolutions are opaque signal transformers,
`lreluSlope` is `modules.LRELU_SLOPE`. -/
structure GenWeights where
  convPre : List ℝ → List ℝ
  cond : List ℝ → List ℝ
  ups : ℕ → List ℝ → List ℝ
  resblocks : ℕ → List ℝ → List ℝ
  convPost : List ℝ → List ℝ
  numUpsamples : ℕ
  numKernels : ℕ
  lreluSlope : ℝ

/-- The upsampling loop shared by `Generator.forward` (lines 102-108) and
`GeneratorNSF.forward` (lines 215-222): per stage, leaky-ReLU, transposed
convolution, optional excitation injection (`x += noise_convs[i](har)`,
NSF only), then the parallel residual blocks summed and divided by the
number of kernels. -/
noncomputable def generatorStages (w : GenWeights) (inject : ℕ → Option (List ℝ))
    (x : List ℝ) : List ℝ :=
  (List.range w.numUpsamples).foldl
    (fun x i =>
      let x1 := w.ups i (leakyRelu w.lreluSlope x)
      let x2 := match inject i with
        | some h => addLists x1 h
        | none => x1
      (stageSum w.numKernels w.resblocks i x2).map (· / (w.numKernels : ℝ)))
    x

/-- The shared head and tail of both generator `forward`s: `conv_pre`,
optional speaker conditioning `x += cond(g)`, the stage loop, the final
`F.leaky_relu(x)` (default slope 0.01), `conv_post` and `torch.tanh`. -/
noncomputable def generatorCore (w : GenWeights) (inject : ℕ → Option (List ℝ))
    (x : List ℝ) (g : Option (List ℝ)) : List ℝ :=
  let x0 := w.convPre x
  let x1 := match g with
    | some gg => addLists x0 (w.cond gg)
    | none => x0
  ((w.convPost (leakyRelu 0.01 (generatorStages w inject x1))).map Real.tanh)

/-- `Generator.forward` (lines 98-110 of `models.py`). -/
noncomputable def generatorForward (w : GenWeights) (x : List ℝ)
    (g : Option (List ℝ)) : List ℝ :=
  generatorCore w (fun _ => none) x g

/-- `GeneratorNSF.forward` (lines 209-224 of `models.py`): the harmonic
source `m_source(f0, upp)` is computed once (`mSource` packs
`SourceModuleHnNSF` and the transpose) and injected at every stage through
`noise_convs[i]`. -/
noncomputable def generatorNSFForward (w : GenWeights)
    (noiseConvs : ℕ → List ℝ → List ℝ) (mSource : List ℝ → List ℝ)
    (x f0 : List ℝ) (g : Option (List ℝ)) : List ℝ :=
  generatorCore w (fun i => some (noiseConvs i (mSource f0))) x g

/-- The one mutable attribute reachable from
`SynthesizerTrnMsNSFsid.infer`: `SourceModuleHnNSF` caches `self.ddtype`
on its first call (lines 173-174 of `models.py`).  `ddtype` is `none`
while the attribute is still absent; dtypes are abstracted to `Bool`
(half vs. full precision). -/
structure SrcState where
  ddtype : Option Bool
deriving DecidableEq

/-- Frozen data of `SourceModuleHnNSF` (lines 162-179): the dtype of
`l_linear.weight`, the dtype the sine generator emits, the generator
itself, the dtype cast `.to(·)`, and the `l_tanh ∘ l_linear` head. -/
structure SrcWeights where
  linearWeightDtype : Bool
  sineDtype : Bool
  sineGen : List ℚ → ℕ → (ℕ → ℚ) → List ℚ
  castTo : Bool → List ℚ → List ℚ
  head : List ℚ → List ℚ

/-- `SourceModuleHnNSF.forward` (lines 172-179), with the attribute write
made explicit: if `ddtype` is absent it is set to the linear weight's
dtype; the sine waves are cast when their dtype differs; the returned
state is the module state after the call. -/
def sourceForward (w : SrcWeights) (st : SrcState) (x : List ℚ) (upp : ℕ)
    (rng : ℕ → ℚ) : List ℚ × SrcState :=
  let d := match st.ddtype with
    | none => w.linearWeightDtype
    | some d => d
  let st' : SrcState := ⟨some d⟩
  let sw := w.sineGen x upp rng
  let sw' := if w.sineDtype ≠ d then w.castTo d sw else sw
  (w.head sw', st')

/-- `SynthesizerTrnMsNSFsid.infer` with the module state threaded
explicitly.  The only attribute any submodule could write during the
call is the `ddtype` cache of `dec.m_source` (lines 173-174 of
`models.py`), and that write happens inside `self.dec`, which runs only
after the unpacking on line 272.  The unpacking raises (`enc_p` returns
a 2-tuple, see `infer`), so the exception propagates with the module
state unchanged; the successful-unpack arm, where `dec` would invoke
`SourceModuleHnNSF.forward` and update the cache, is unreachable. -/
def inferSt (w : SynthWeights) (sw : SrcWeights) (st : SrcState)
    (phone : List ℚ) (phoneLengths : ℕ) (pitch : Option (List ℕ))
    (nsff0 : List ℚ) (sid : ℕ) (rate : Option ℚ) (noise : List ℚ)
    (rngDec : ℕ → ℚ) (upp : ℕ) :
    Except PyErr (List ℚ × List ℚ × (List ℚ × List ℚ × List ℚ × List ℚ)) ×
      SrcState :=
  let g := w.embG sid
  let mlx := w.encP phone pitch phoneLengths
  match pyUnpack3 (encPElems mlx) with
  | .error e => (.error e, st)
  | .ok _ =>
    let src := sourceForward sw st nsff0 upp rngDec
    (.error .valueError, src.2)

/-- Weights of `TextEncoder` (lines 17-36 of `models.py`).  `P` and `Q`
are the types of the raw phone and pitch inputs; `embPhone`/`embPitch`
are the embedding layers (returning a per-index value), `sqrtHidden` the
numeric `math.sqrt(hidden_channels)`, `encoder` the self-attention stack
(taking the masked input and the mask), `proj` the final 1x1 convolution
with its output split into the two channel halves `(m, logs)`, and
`xMask` the valid-length mask built from `lengths`. -/
structure TextEncWeights (P Q : Type) where
  embPhone : P → ℕ → ℚ
  embPitch : Q → ℕ → ℚ
  sqrtHidden : ℚ
  encoder : (ℕ → ℚ) → (ℕ → ℚ) → ℕ → ℚ
  proj : (ℕ → ℚ) → (ℕ → ℚ) × (ℕ → ℚ)
  xMask : ℕ → ℕ → ℚ

/-- Line 30 of `models.py`:
`x = self.emb_phone(phone) + (self.emb_pitch(pitch) if pitch is not None
else 0)`. -/
def textEncX (w : TextEncWeights P Q) (phone : P) (pitch : Option Q)
    (i : ℕ) : ℚ :=
  w.embPhone phone i + (match pitch with
    | some p => w.embPitch p i
    | none => 0)

/-- Elementwise `nn.LeakyReLU(0.1)`. -/
def lrelu01 (v : ℚ) : ℚ := if v < 0 then (1 / 10) * v else v

/-- `TextEncoder.forward` (lines 29-36): scale by `sqrt(hidden)`,
leaky-ReLU, mask, attention stack, projection masked and split into
`(m, logs)`, returning `((m, logs), x_mask)`. -/
def textEncForward (w : TextEncWeights P Q) (phone : P) (pitch : Option Q)
    (lengths : ℕ) : ((ℕ → ℚ) × (ℕ → ℚ)) × (ℕ → ℚ) :=
  let x : ℕ → ℚ := fun i => lrelu01 (textEncX w phone pitch i * w.sqrtHidden)
  let xmask := w.xMask lengths
  let enc := w.encoder (fun i => x i * xmask i) xmask
  let stats := w.proj enc
  ((fun i => (stats.1) i * xmask i, fun i => (stats.2) i * xmask i), xmask)

/-- The `SynthesizerTrnMsNSFsid` family collapsed to its constructor
surface: `args` packs every constructor argument other than `f0`, and
`f0` is the pitch-capability flag handed to the `TextEncoder`. -/
structure SynthCtor (A : Type) where
  args : A
  f0 : Bool
deriving DecidableEq

/-- The `SynthesizerTrnMsNSFsid.__init__` surface (line 241): records the
arguments and the `f0` flag. -/
def mkSynthesizerTrnMsNSFsid (args : A) (f0 : Bool) : SynthCtor A :=
  ⟨args, f0⟩

/-- `SynthesizerTrnMsNSFsid_nono.__init__` (lines 281-283): calls the
parent constructor with `f0=False` and overrides nothing else. -/
def mkSynthesizerTrnMsNSFsid_nono (args : A) : SynthCtor A :=
  mkSynthesizerTrnMsNSFsid args false

/-- The two files `download_and_replace_model` can touch inside
`rvc_models` (`src/modules/download_hubert.py`): the installed
`hubert_base.pt` and the scratch `tmp_model.pt`.  `none` means the file
does not exist; contents are abstracted to `ℕ`. -/
structure HubFS where
  hubert : Option ℕ
  tmp : Option ℕ
deriving DecidableEq

/-- Outcome of `urlopen` + `copyfileobj` on lines 26-27 of
`download_hubert.py`: `urlFail` means `urlopen` raised (the tmp file is
never opened), `copyFail c` means the copy raised after writing partial
bytes `c` to the tmp file, `ok c` means the full body `c` was written. -/
inductive DLOutcome where
  | urlFail
  | copyFail (c : ℕ)
  | ok (c : ℕ)
deriving DecidableEq

/-- `download_and_replace_model` (lines 21-34 of `download_hubert.py`):
stream the download into `tmp_model.pt`; only on success remove
`hubert_base.pt` if present and rename the tmp file onto it.  The `Bool`
reports whether the call returned normally (`false` = the exception
propagated). -/
def download_and_replace_model (fs : HubFS) (dl : DLOutcome) : HubFS × Bool :=
  match dl with
  | .urlFail => (fs, false)
  | .copyFail c => ({ fs with tmp := some c }, false)
  | .ok c =>
    let fs1 : HubFS := { fs with tmp := some c }
    let fs2 : HubFS :=
      if fs1.hubert.isSome then { fs1 with hubert := none } else fs1
    ({ fs2 with hubert := fs2.tmp, tmp := none }, true)

/-- Association-list lookup for named filesystem entries. -/
def lookupA : List (ℕ × ℕ) → ℕ → Option ℕ
  | [], _ => none
  | e :: tl, k => if e.1 = k then some e.2 else lookupA tl k

/-- Delete the entry named `k`. -/
def removeA : List (ℕ × ℕ) → ℕ → List (ℕ × ℕ)
  | [], _ => []
  | e :: tl, k => if e.1 = k then removeA tl k else e :: removeA tl k

/-- Create or overwrite the entry named `k`. -/
def setA (l : List (ℕ × ℕ)) (k v : ℕ) : List (ℕ × ℕ) :=
  (k, v) :: removeA l k

/-- The `models/rvc_models` directory as seen by
`rvc/modules/model_management.py`: installed model directories and loose
files (the staged `<name>.zip`), both keyed by name; names and contents
are abstracted to `ℕ`. -/
structure ModelsFS where
  dirs : List (ℕ × ℕ)
  files : List (ℕ × ℕ)
deriving DecidableEq

/-- Outcome of `download_file` (lines 49-79 of `model_management.py`):
success with the zip's content, or an exception with an optional
partially written zip. -/
inductive ZipDL where
  | ok (c : ℕ)
  | fail (c : Option ℕ)
deriving DecidableEq

/-- `download_from_url` (lines 82-96 of `model_management.py`): reject if
the model directory already exists; otherwise stage `<name>.zip`, run
`extract_zip` (which unpacks into the new directory and removes the zip;
`extractF` maps the zip content to `.ok contents`, or `.error c` when no
`.pth` is found, leaving partial contents `c` behind).  The `Bool`
reports normal return. -/
def download_from_url (extractF : ℕ → Except ℕ ℕ) (fs : ModelsFS)
    (dirName : ℕ) (dl : ZipDL) : ModelsFS × Bool :=
  if (lookupA fs.dirs dirName).isSome then (fs, false)
  else
    match dl with
    | .fail none => (fs, false)
    | .fail (some c) => ({ fs with files := setA fs.files dirName c }, false)
    | .ok z =>
      let fs1 : ModelsFS := { fs with files := setA fs.files dirName z }
      match extractF z with
      | .ok c =>
        ({ fs1 with
            dirs := setA fs1.dirs dirName c,
            files := removeA fs1.files dirName }, true)
      | .error c =>
        ({ fs1 with
            dirs := setA fs1.dirs dirName c,
            files := removeA fs1.files dirName }, false)

/-- `upload_zip_model` (lines 99-111): reject if the directory exists;
otherwise extract the uploaded zip (which lives outside `rvc_models`, so
only the new directory is touched). -/
def upload_zip_model (extractF : ℕ → Except ℕ ℕ) (fs : ModelsFS)
    (dirName : ℕ) (zipContent : ℕ) : ModelsFS × Bool :=
  if (lookupA fs.dirs dirName).isSome then (fs, false)
  else
    match extractF zipContent with
    | .ok c => ({ fs with dirs := setA fs.dirs dirName c }, true)
    | .error c => ({ fs with dirs := setA fs.dirs dirName c }, false)

/-- `upload_separate_files` (lines 114-132): reject if the directory
exists; otherwise create it and copy in the optional `.pth` and `.index`
files (`mkContents` abstracts the resulting directory contents). -/
def upload_separate_files (mkContents : Option ℕ → Option ℕ → ℕ)
    (fs : ModelsFS) (dirName : ℕ) (pth index : Option ℕ) : ModelsFS × Bool :=
  if (lookupA fs.dirs dirName).isSome then (fs, false)
  else ({ fs with dirs := setA fs.dirs dirName (mkContents pth index) }, true)

/-- A concrete, trivial synthesizer weight assignment, used to instantiate
universally quantified theorems on explicit inputs. -/
def trivSynthWeights : SynthWeights where
  embG := fun _ => []
  encP := fun _ _ _ => (([], []), [])
  expF := fun q => q
  flow := fun x _ _ _ => x
  dec := fun z _ _ _ => z

/-- A concrete, trivial source-module weight assignment. -/
def trivSrcWeights : SrcWeights where
  linearWeightDtype := true
  sineDtype := true
  sineGen := fun x _ _ => x
  castTo := fun _ l => l
  head := fun l => l

theorem lookupA_removeA_ne (l : List (ℕ × ℕ)) (k d : ℕ) (h : d ≠ k) :
    lookupA (removeA l k) d = lookupA l d := by
  induction l with
  | nil => rfl
  | cons e tl ih =>
    by_cases he : e.1 = k
    · simp only [removeA, if_pos he, ih, lookupA]
      rw [if_neg (fun hd : e.1 = d => h (hd.symm.trans he))]
    · simp only [removeA, if_neg he, lookupA]
      by_cases hd : e.1 = d
      · rw [if_pos hd, if_pos hd]
      · rw [if_neg hd, if_neg hd, ih]

theorem lookupA_setA_ne (l : List (ℕ × ℕ)) (k v d : ℕ) (h : d ≠ k) :
    lookupA (setA l k v) d = lookupA l d := by
  simp only [setA, lookupA]
  rw [if_neg (fun hc : k = d => h hc.symm)]
  exact lookupA_removeA_ne l k d h

/-- C3: `ResidualCouplingBlock.forward` with `reverse=True` folds the flow
steps in exactly the reversed order of the `reverse=False` pass (a right
fold instead of a left fold over the stored list), invoking each step with
`reverse=True`; with `reverse=False` it folds the list in order; the
reversed list is a permutation of the original, so the set of applied
steps is identical; and the stored list alternates coupling layers and
flips, `n_flows` repetitions of the pair. -/
theorem claim_C3_flow_reverse_order :
    ∀ (layer flip : FlowStep) (n : ℕ) (flows : List FlowStep)
      (x xmask g : List ℚ),
      flowForward flows x xmask g true =
        flows.foldr (fun f a => f.apply a xmask g true) x ∧
      flowForward flows x xmask g false =
        flows.foldl (fun a f => f.apply a xmask g false) x ∧
      flows.reverse.Perm flows ∧
      mkFlows layer flip n = (List.replicate n [layer, flip]).flatten := by
  intro layer flip n flows x xmask g
  refine ⟨?_, rfl, List.reverse_perm flows, rfl⟩
  simp [flowForward, List.foldl_reverse]

/-- C6: the claim describes the intended reproducibility, but the staged
`infer` returns no waveform at all: `enc_p` returns a 2-tuple (line 36 of
`models.py`) that line 272 unpacks into three targets, raising
`ValueError` on every call — with any weights, inputs and random
streams, before any noise is drawn.  Two calls with identical inputs do
behave identically, but what they share is the raised `ValueError`, not
an output waveform; evaluated concretely at an explicit input. -/
theorem claim_C6_deterministic_error :
    ∀ (w : SynthWeights) (phone : List ℚ) (pl : ℕ) (pitch : Option (List ℕ))
      (nsff0 : List ℚ) (sid : ℕ) (rate : Option ℚ) (n₁ n₂ : List ℚ)
      (r₁ r₂ : ℕ → ℚ),
      infer w phone pl pitch nsff0 sid rate n₁ r₁ =
        infer w phone pl pitch nsff0 sid rate n₂ r₂ ∧
      infer w phone pl pitch nsff0 sid rate n₁ r₁ =
        Except.error PyErr.valueError ∧
      infer trivSynthWeights [1] 1 none [1] 0 none [1] (fun _ => 1) =
        Except.error PyErr.valueError := by
  intro w phone pl pitch nsff0 sid rate n₁ n₂ r₁ r₂
  exact ⟨rfl, rfl, rfl⟩

/-- C8: the no-pitch synthesizer variant is the pitched synthesizer
constructed with `f0=False` (it overrides nothing but the constructor);
`TextEncoder.forward` with `pitch=None` is independent of the pitch
embedding table, the pitch term of the summed input is zero in that case,
and with a pitch given the pitch embedding is summed with the phone
embedding (before the self-attention stack, per `textEncForward`). -/
theorem claim_C8_nono_equals_f0_false :
    ∀ (A P Q : Type) (args : A) (ep : P → ℕ → ℚ) (e₁ e₂ : Q → ℕ → ℚ)
      (s : ℚ) (enc : (ℕ → ℚ) → (ℕ → ℚ) → ℕ → ℚ)
      (pr : (ℕ → ℚ) → (ℕ → ℚ) × (ℕ → ℚ)) (xm : ℕ → ℕ → ℚ)
      (phone : P) (p : Q) (L i : ℕ),
      mkSynthesizerTrnMsNSFsid_nono args = mkSynthesizerTrnMsNSFsid args false ∧
      textEncForward ⟨ep, e₁, s, enc, pr, xm⟩ phone none L =
        textEncForward ⟨ep, e₂, s, enc, pr, xm⟩ phone none L ∧
      textEncX ⟨ep, e₁, s, enc, pr, xm⟩ phone none i = ep phone i ∧
      textEncX ⟨ep, e₁, s, enc, pr, xm⟩ phone (some p) i =
        ep phone i + e₁ p i := by
  intro A P Q args ep e₁ e₂ s enc pr xm phone p L i
  exact ⟨rfl, rfl, add_zero _, rfl⟩

/-- C9: `download_and_replace_model` replaces the installed checkpoint
atomically with respect to download failure: on success the installed
`hubert_base.pt` holds exactly the downloaded bytes and the temporary
file is gone; if `urlopen` or the copy raises, the previously installed
`hubert_base.pt` is unchanged and the exception propagates. -/
theorem claim_C9_hubert_atomic_replace :
    ∀ (fs : HubFS) (dl : DLOutcome),
      (∀ c, dl = .ok c →
        download_and_replace_model fs dl = (⟨some c, none⟩, true)) ∧
      ((dl = .urlFail ∨ ∃ c, dl = .copyFail c) →
        (download_and_replace_model fs dl).1.hubert = fs.hubert ∧
        (download_and_replace_model fs dl).2 = false) := by
  intro fs dl
  constructor
  · rintro c rfl
    by_cases h : fs.hubert.isSome <;>
      simp [download_and_replace_model, h]
  · rintro (rfl | ⟨c, rfl⟩) <;> simp [download_and_replace_model]

theorem claim_C9_hubert_atomic_replace_witness :
    (download_and_replace_model ⟨some 5, none⟩ (.copyFail 7)).1.hubert =
      some 5 ∧
    (download_and_replace_model ⟨some 5, none⟩ (.copyFail 7)).2 = false :=
  (claim_C9_hubert_atomic_replace ⟨some 5, none⟩ (.copyFail 7)).2
    (Or.inr ⟨7, rfl⟩)

/-- C10: each of `download_from_url`, `upload_zip_model` and
`upload_separate_files` first checks for an existing model directory of
the requested name and, when it exists, raises without touching the
filesystem; and none of them ever modifies any model directory other than
the requested one, so an installed model is never overwritten. -/
theorem claim_C10_never_overwrite_model :
    ∀ (extractF : ℕ → Except ℕ ℕ) (mkContents : Option ℕ → Option ℕ → ℕ)
      (fs : ModelsFS) (dirName : ℕ) (dl : ZipDL) (zipContent : ℕ)
      (pth index : Option ℕ),
      ((lookupA fs.dirs dirName).isSome →
        download_from_url extractF fs dirName dl = (fs, false) ∧
        upload_zip_model extractF fs dirName zipContent = (fs, false) ∧
        upload_separate_files mkContents fs dirName pth index = (fs, false)) ∧
      (∀ d, d ≠ dirName →
        lookupA (download_from_url extractF fs dirName dl).1.dirs d =
          lookupA fs.dirs d ∧
        lookupA (upload_zip_model extractF fs dirName zipContent).1.dirs d =
          lookupA fs.dirs d ∧
        lookupA (upload_separate_files mkContents fs dirName pth index).1.dirs d =
          lookupA fs.dirs d) := by
  intro extractF mkContents fs dirName dl zipContent pth index
  constructor
  · intro h
    simp [download_from_url, upload_zip_model, upload_separate_files, h]
  · intro d hd
    by_cases h : (lookupA fs.dirs dirName).isSome
    · simp [download_from_url, upload_zip_model, upload_separate_files, h]
    · refine ⟨?_, ?_, ?_⟩
      · rcases dl with z | c
        · simp only [download_from_url, if_neg h]
          rcases hex : extractF z with c | c <;>
            simp [hex, lookupA_setA_ne _ _ _ _ hd]
        · rcases c with _ | c <;>
            simp [download_from_url, if_neg h]
      · simp only [upload_zip_model, if_neg h]
        rcases hex : extractF zipContent with c | c <;>
          simp [hex, lookupA_setA_ne _ _ _ _ hd]
      · simp [upload_separate_files, if_neg h, lookupA_setA_ne _ _ _ _ hd]

theorem claim_C10_never_overwrite_model_witness :
    download_from_url (fun z => .ok z)
        ⟨[(3, 9)], []⟩ 3 (.ok 4) = (⟨[(3, 9)], []⟩, false) ∧
    lookupA (download_from_url (fun z => .ok z)
        ⟨[(3, 9)], []⟩ 7 (.ok 4)).1.dirs 3 = some 9 := by
  constructor
  · exact ((claim_C10_never_overwrite_model (fun z => .ok z) (fun _ _ => 0)
      ⟨[(3, 9)], []⟩ 3 (.ok 4) 4 none none).1 (by decide)).1
  · have h := ((claim_C10_never_overwrite_model (fun z => .ok z) (fun _ _ => 0)
      ⟨[(3, 9)], []⟩ 7 (.ok 4) 4 none none).2 3 (by decide)).1
    rw [h]; decide

/-- C7: an `infer` call leaves every attribute of the synthesizer module
and all its submodules unchanged, so a second call observes exactly the
module state the first call observed.  The one attribute a submodule
could write — the `ddtype` cache of `dec.m_source`, lines 173-174 of
`models.py` — sits inside `self.dec`, which the staged `infer` never
reaches: the `ValueError` from the line-272 unpacking propagates first,
and the call leaves the state exactly as it found it. -/
theorem claim_C7_state_unchanged :
    ∀ (w : SynthWeights) (sw : SrcWeights) (st : SrcState) (phone : List ℚ)
      (pl : ℕ) (pitch : Option (List ℕ)) (nsff0 : List ℚ) (sid : ℕ)
      (rate : Option ℚ) (noise : List ℚ) (rng : ℕ → ℚ) (upp : ℕ)
      (phone' : List ℚ) (pl' : ℕ) (pitch' : Option (List ℕ))
      (nsff0' : List ℚ) (sid' : ℕ) (rate' : Option ℚ) (noise' : List ℚ)
      (rng' : ℕ → ℚ) (upp' : ℕ),
      (inferSt w sw st phone pl pitch nsff0 sid rate noise rng upp).2 = st ∧
      (inferSt w sw
          (inferSt w sw st phone pl pitch nsff0 sid rate noise rng upp).2
          phone' pl' pitch' nsff0' sid' rate' noise' rng' upp').2 =
        (inferSt w sw st phone pl pitch nsff0 sid rate noise rng upp).2 := by
  intro w sw st phone pl pitch nsff0 sid rate noise rng upp
  intro phone' pl' pitch' nsff0' sid' rate' noise' rng' upp'
  exact ⟨rfl, rfl⟩

/-- C1: the claim describes the intended sampling, but the staged `infer`
never samples the prior: `enc_p` returns the 2-tuple
`((m, logs), x_mask)` (line 36 of `models.py`), line 272 unpacks it into
the three targets `m_p, logs_p, x_mask`, and the resulting `ValueError`
propagates before line 273's sampling expression can run — for every
weight assignment, every input and every random stream, and concretely
at an explicit input. -/
theorem claim_C1_sampling_unreachable :
    (∀ (w : SynthWeights) (phone : List ℚ) (pl : ℕ)
      (pitch : Option (List ℕ)) (nsff0 : List ℚ) (sid : ℕ)
      (rate : Option ℚ) (noise : List ℚ) (rng : ℕ → ℚ),
      infer w phone pl pitch nsff0 sid rate noise rng =
        Except.error PyErr.valueError) ∧
    infer trivSynthWeights [1] 1 none [1] 0 none [1] (fun _ => 1) =
      Except.error PyErr.valueError := by
  exact ⟨fun w phone pl pitch nsff0 sid rate noise rng => rfl, rfl⟩

theorem pyInt_eq_floor (q : ℚ) (h : 0 ≤ q) : pyInt q = ⌊q⌋ := by
  rw [pyInt, Int.tdiv_eq_ediv (Rat.num_nonneg.mpr h) (Int.natCast_nonneg _),
    Rat.floor_def]

/-- C2: the claim describes the intended truncation, but the staged
`infer` raises before `head` is ever computed: the `ValueError` from the
line-272 unpacking (a 2-tuple into three targets) propagates before the
slicing on lines 274-276 can run, for every truncate rate — in
particular at an explicit call with a rate of `1/10` — so no call ever
cuts (or fails to cut) the latent, mask or pitch. -/
theorem claim_C2_truncation_unreachable :
    (∀ (w : SynthWeights) (phone : List ℚ) (pl : ℕ)
      (pitch : Option (List ℕ)) (nsff0 : List ℚ) (sid : ℕ) (r : ℚ)
      (noise : List ℚ) (rng : ℕ → ℚ),
      infer w phone pl pitch nsff0 sid (some r) noise rng =
        Except.error PyErr.valueError) ∧
    infer trivSynthWeights [1, 2, 3] 3 none [1, 2, 3] 0 (some (1 / 10))
        [0, 0, 0] (fun _ => 0) =
      Except.error PyErr.valueError := by
  exact ⟨fun w phone pl pitch nsff0 sid r noise rng => rfl, rfl⟩

theorem real_tanh_lt_one (x : ℝ) : Real.tanh x < 1 := by
  rw [Real.tanh_eq_sinh_div_cosh]
  exact (div_lt_one (Real.cosh_pos x)).mpr (Real.sinh_lt_cosh x)

theorem real_neg_one_lt_tanh (x : ℝ) : -1 < Real.tanh x := by
  have h := real_tanh_lt_one (-x)
  rw [Real.tanh_neg] at h
  linarith

theorem tanh_map_getD_bounds (l : List ℝ) (i : ℕ) :
    -1 ≤ (l.map Real.tanh).getD i 0 ∧ (l.map Real.tanh).getD i 0 ≤ 1 := by
  by_cases h : i < l.length
  · have h' : i < (l.map Real.tanh).length := by simpa using h
    rw [List.getD_eq_getElem _ _ h', List.getElem_map]
    exact ⟨(real_neg_one_lt_tanh _).le, (real_tanh_lt_one _).le⟩
  · rw [List.getD_eq_default _ _ (by simpa using h)]
    norm_num

/-- C5: both `Generator.forward` and `GeneratorNSF.forward` return the
elementwise `tanh` of the final convolution applied after the upsampling
stages (whose parallel residual-block outputs are summed and divided by
the number of kernels inside `generatorStages`), hence every output
sample lies in `[-1, 1]`. -/
theorem claim_C5_tanh_bounded_output :
    ∀ (w : GenWeights) (nc : ℕ → List ℝ → List ℝ) (ms : List ℝ → List ℝ)
      (x f0 : List ℝ) (g : Option (List ℝ)) (i : ℕ),
      generatorForward w x g =
        (w.convPost (leakyRelu 0.01 (generatorStages w (fun _ => none)
          (match g with
            | some gg => addLists (w.convPre x) (w.cond gg)
            | none => w.convPre x)))).map Real.tanh ∧
      generatorNSFForward w nc ms x f0 g =
        (w.convPost (leakyRelu 0.01 (generatorStages w
          (fun j => some (nc j (ms f0)))
          (match g with
            | some gg => addLists (w.convPre x) (w.cond gg)
            | none => w.convPre x)))).map Real.tanh ∧
      (-1 ≤ (generatorForward w x g).getD i 0 ∧
        (generatorForward w x g).getD i 0 ≤ 1) ∧
      (-1 ≤ (generatorNSFForward w nc ms x f0 g).getD i 0 ∧
        (generatorNSFForward w nc ms x f0 g).getD i 0 ≤ 1) := by
  intro w nc ms x f0 g i
  exact ⟨rfl, rfl, tanh_map_getD_bounds _ i, tanh_map_getD_bounds _ i⟩

/-- C4: `SineGen.forward` gives the fundamental a zero initial phase
(its first phase increment carries no random offset) while harmonic
`k + 1` receives the independent random offset `rand (k + 1)`; the sines
are the sine of the cumulative sum of the per-sample phase increments
plus the wrap-around correction `cumsum_shift` (which is `-1` exactly
when the wrapped cumulative phase decreases and `0` at the first sample);
samples whose frame has `f0` at or below the voiced threshold are pure
noise of amplitude `sine_amp / 3`, and voiced samples are the sine plus
noise of standard deviation `noise_std`. -/
theorem claim_C4_sine_excitation :
    ∀ (cfg : SineGenCfg) (sinF : ℚ → ℚ) (twoPi : ℚ) (f0 rand : ℕ → ℚ)
      (gauss : ℕ → ℕ → ℚ) (T upp : ℕ),
      (radValues cfg f0 rand 0 0 = frac (f0 0 * 1 / cfg.samplingRate) ∧
        ∀ k, radValues cfg f0 rand (k + 1) 0 =
          frac (f0 0 * ((k : ℚ) + 1 + 1) / cfg.samplingRate) + rand (k + 1)) ∧
      (∀ k i, f0 (i / upp) ≤ cfg.voicedThreshold →
        sineGenForward cfg sinF twoPi f0 rand gauss T upp k i =
          cfg.sineAmp / 3 * gauss k i) ∧
      (∀ k i, cfg.voicedThreshold < f0 (i / upp) →
        sineGenForward cfg sinF twoPi f0 rand gauss T upp k i =
          sineWaves cfg sinF twoPi f0 rand T upp k i +
            cfg.noiseStd * gauss k i) ∧
      (∀ k i, sineWaves cfg sinF twoPi f0 rand T upp k i =
        sinF (cumsum (fun j => radUp cfg f0 rand upp k j +
          cumsumShift cfg f0 rand T upp k j) i * twoPi) * cfg.sineAmp) ∧
      (∀ k i, cumsumShift cfg f0 rand T upp k (i + 1) =
        (if tmpOverOne cfg f0 rand T upp k (i + 1) <
            tmpOverOne cfg f0 rand T upp k i then -1 else 0)) ∧
      (∀ k, cumsumShift cfg f0 rand T upp k 0 = 0) := by
  intro cfg sinF twoPi f0 rand gauss T upp
  refine ⟨⟨?_, ?_⟩, ?_, ?_, ?_, ?_, ?_⟩
  · norm_num [radValues, f0Buf, randIni]
  · intro k
    norm_num [radValues, f0Buf, randIni]
  · intro k i h
    have huv : uvUp cfg f0 upp i = 0 := by
      simp [uvUp, nearestUp, uvFrame, not_lt.mpr h]
    simp only [sineGenForward, sineGenNoise, noiseAmp, huv]
    ring
  · intro k i h
    have huv : uvUp cfg f0 upp i = 1 := by
      simp [uvUp, nearestUp, uvFrame, h]
    simp only [sineGenForward, sineGenNoise, noiseAmp, huv]
    ring
  · intro k i
    rfl
  · intro k i
    simp [cumsumShift, sub_neg]
  · intro k
    rfl

theorem claim_C4_sine_excitation_witness :
    sineGenForward ⟨1, 1, 0, 0⟩ id 1 (fun _ => 0) (fun _ => 0)
      (fun _ _ => 3) 1 1 0 0 = 1 / 3 * 3 :=
  (claim_C4_sine_excitation ⟨1, 1, 0, 0⟩ id 1 (fun _ => 0) (fun _ => 0)
    (fun _ _ => 3) 1 1).2.1 0 0 (le_refl 0)

end RVC
